import Mathlib

set_option maxRecDepth 8000

/-!
Verification development for the autonomous recorder of the
750C-InTheZone robot codebase (src/src/autonrecorder.c and
src/include/autonrecorder.h), shallowly embedded in Lean 4.

Modelling conventions:
* C `signed char` channel values are modelled as `Int`; the byte actually
  stored in a file is modelled as a `Nat` in `[0, 256)` obtained by the
  two's-complement conversion `toByte`, and read back with `fromByte`
  (the `(signed char)` cast on load).
* The global `states` array of 750 `joyState` structs is modelled as a
  function `Nat → Sample`; all operations only touch indices
  `< numStates` (= 750), exactly as the C loops do.
* Files are modelled as `Option (List Nat)` (absent, or a byte list);
  the flash file system is a map from filename to such a file.
* LCD output, `printf`, `delay`, and backlight toggling are pure side
  effects with no influence on the data and are not modelled.
-/

namespace AutonRecorder

/-- Constant `AUTON_TIME` from autonrecorder.h (seconds of autonomous). -/
def AUTON_TIME : Nat := 15

/-- Constant `PROGSKILL_TIME` from autonrecorder.h (seconds of skills). -/
def PROGSKILL_TIME : Nat := 60

/-- Constant `JOY_POLL_FREQ` from autonrecorder.h (polls per second). -/
def JOY_POLL_FREQ : Nat := 50

/-- Constant `MAX_AUTON_SLOTS` from autonrecorder.h. -/
def MAX_AUTON_SLOTS : Nat := 10

/-- Size of the `states` array: `AUTON_TIME * JOY_POLL_FREQ` = 750. -/
def numStates : Nat := AUTON_TIME * JOY_POLL_FREQ

/-- Number of programming-skills sections: `PROGSKILL_TIME / AUTON_TIME` = 4. -/
def numSections : Nat := PROGSKILL_TIME / AUTON_TIME

/-- The `joyState` struct from autonrecorder.h: five signed 8-bit command
channels, modelled as `Int`. Field order follows the header. -/
structure Sample where
  spd : Int
  turn : Int
  horizontal : Int
  sht : Int
  lift : Int
deriving DecidableEq, Repr

/-- The all-zero `joyState`. -/
def zeroSample : Sample := { spd := 0, turn := 0, horizontal := 0, sht := 0, lift := 0 }

/-- The in-memory Routine Buffer: the global `states` array, one `Sample`
per tick index. Only indices `< numStates` are meaningful. -/
def Buffer : Type := Nat → Sample

/-- Two's-complement byte stored on flash for a signed char value. -/
def toByte (v : Int) : Nat := (v % 256).toNat

/-- The `(signed char)` reinterpretation of a stored byte on load. -/
def fromByte (b : Nat) : Int := if b < 128 then (b : Int) else (b : Int) - 256

/-- The five bytes written for one sample by the `saveAuton` inner loop
(autonrecorder.c lines 152-161): `write[0] = spd`, `write[1] = horizontal`,
`write[2] = turn`, `write[3] = sht`, `write[4] = lift`. -/
def encodeSample (s : Sample) : List Nat :=
  [toByte s.spd, toByte s.horizontal, toByte s.turn, toByte s.sht, toByte s.lift]

/-- The byte stream produced by the `saveAuton` save loop (lines 150-163):
for each `i < 750` in order, the five bytes of sample `i` are appended, so
byte `5*i + j` is channel `j` of sample `i`. -/
def encode (b : Buffer) : List Nat :=
  (List.ofFn fun i : Fin numStates => encodeSample (b i.val)).flatten

/-- One sample as read back by the `loadAuton` inner loop (lines 299-307):
byte `5*i + j` is fetched with `fseek`/`fread` and cast to signed char;
`read[0] → spd`, `read[1] → horizontal`, `read[2] → turn`, `read[3] → sht`,
`read[4] → lift`. Bytes past the end of the stream are modelled as 0
(the C code would read indeterminate data there; no claim exercises it). -/
def decodeSample (bytes : List Nat) (i : Nat) : Sample :=
  { spd := fromByte ((bytes[5 * i]?).getD 0)
    turn := fromByte ((bytes[5 * i + 2]?).getD 0)
    horizontal := fromByte ((bytes[5 * i + 1]?).getD 0)
    sht := fromByte ((bytes[5 * i + 3]?).getD 0)
    lift := fromByte ((bytes[5 * i + 4]?).getD 0) }

/-- The buffer contents produced by the `loadAuton` read loop
(lines 297-310). -/
def decode (bytes : List Nat) : Buffer := fun i => decodeSample bytes i


/-- The flash file system: a map from filename to the file's byte list,
or `none` when the file is absent. -/
def FS : Type := String → Option (List Nat)

/-- The process-wide globals of autonrecorder.c: the `states` array, the
`autonLoaded` marker, and the `progSkills` section counter. -/
structure RecState where
  states : Buffer
  autonLoaded : Int
  progSkills : Nat

/-- Model of `initAutonRecorder` (autonrecorder.c lines 41-52).
`memset(states, 0, sizeof(*states))` zeroes only `sizeof(joyState)` = 5
bytes, i.e. only `states[0]`; then `autonLoaded = -1` and `progSkills = 0`. -/
def initAutonRecorder (st : RecState) : RecState :=
  { st with
    states := Function.update st.states 0 zeroSample
    autonLoaded := -1
    progSkills := 0 }

/-- The synthetic override of the horizontal channel during recording
(autonrecorder.c line 76): `(signed char)((int)(i * 2) % 255 - 127)`.
For `i < 750` the value lies in `[-127, 127]`, so the cast is the
identity. -/
def horizontalAt (i : Nat) : Int := ((i : Int) * 2) % 255 - 127

/-- The sample written into `states[i]` at recording tick `i`
(autonrecorder.c lines 74-79): the live joystick channels, except that
`horizontal` is overwritten by the synthetic ramp. -/
def sampleAt (live : Nat → Sample) (i : Nat) : Sample :=
  { spd := (live i).spd
    turn := (live i).turn
    horizontal := horizontalAt i
    sht := (live i).sht
    lift := (live i).lift }

/-- Model of `memset(states + m, 0, sizeof(joyState) * (750 - m))`
(autonrecorder.c line 85 with `m = i + 1`): zeroes indices `[m, 750)`. -/
def zeroFrom (b : Buffer) (m : Nat) : Buffer :=
  fun j => if m ≤ j ∧ j < numStates then zeroSample else b j

/-- The recording loop of `recordAuton` (autonrecorder.c lines 70-90),
from tick `i` on. Each tick samples the joystick into `states[i]`; if the
cancel input (joystick group 7 up) is pressed at that tick, the remaining
entries `[i+1, 750)` are zero-filled and the loop exits (the code sets
`i = AUTON_TIME * JOY_POLL_FREQ`). -/
def recordLoop (live : Nat → Sample) (cancel : Nat → Bool) (i : Nat) (b : Buffer) :
    Buffer :=
  if h : i < numStates then
    let b1 := Function.update b i (sampleAt live i)
    if cancel i then zeroFrom b1 (i + 1)
    else recordLoop live cancel (i + 1) b1
  else b
termination_by numStates - i
decreasing_by simp_wf; omega

/-- Model of `recordAuton` (autonrecorder.c lines 57-100): the effect on
the `states` buffer. The countdown, LCD traffic and the final
`autonLoaded = 0` assignment are not relevant to the buffer contents. -/
def recordAuton (live : Nat → Sample) (cancel : Nat → Bool) (b : Buffer) : Buffer :=
  recordLoop live cancel 0 b

/-- Model of `saveAuton` (autonrecorder.c lines 105-183). With the slot
selection hardcoded at lines 111-116: `autonSlot = 1` when
`progSkills == 0`, else `autonSlot = MAX_AUTON_SLOTS + 1` (the skills
marker). The filename is `"a" + slot` for a regular slot and
`"p" + progSkills` for a skills section (lines 123-131). `canWrite`
models whether `fopen(filename, "w")` succeeds; on failure the function
returns before updating anything (lines 134-148). On success the encoded
buffer is written, `progSkills` is incremented when doing skills
(line 176), reset to 0 on reaching `PROGSKILL_TIME/AUTON_TIME` = 4
(lines 178-181), and `autonLoaded = autonSlot` (line 182). -/
def saveAuton (st : RecState) (fs : FS) (canWrite : String → Bool) : RecState × FS :=
  let autonSlot : Int := if st.progSkills = 0 then 1 else (MAX_AUTON_SLOTS : Int) + 1
  if autonSlot = 0 then (st, fs)
  else
    let filename :=
      if autonSlot ≠ (MAX_AUTON_SLOTS : Int) + 1 then "a" ++ toString autonSlot
      else "p" ++ toString st.progSkills
    if canWrite filename = false then (st, fs)
    else
      let fs1 : FS := fun n => if n = filename then some (encode st.states) else fs n
      let ps1 := if autonSlot = (MAX_AUTON_SLOTS : Int) + 1 then st.progSkills + 1
                 else st.progSkills
      let ps2 := if ps1 = numSections then 0 else ps1
      ({ st with progSkills := ps2, autonLoaded := autonSlot }, fs1)

/-- The filename opened by `loadAuton` (autonrecorder.c lines 272-278):
`"a" + slot` for a regular slot, `"p0"` for the skills aggregate. -/
def loadFilename (autonSlot : Int) : String :=
  if autonSlot ≠ (MAX_AUTON_SLOTS : Int) + 1 then "a" ++ toString autonSlot else "p0"

/-- The open-and-read part of `loadAuton` (autonrecorder.c lines 280-322):
if `fopen` returns NULL the function returns with the state unchanged
(lines 281-293); otherwise the read loop fills `states` from the file and
`autonLoaded = autonSlot` (line 321). -/
def loadBody (autonSlot : Int) (st : RecState) (fs : FS) : RecState :=
  match fs (loadFilename autonSlot) with
  | none => st
  | some bytes => { st with states := decode bytes, autonLoaded := autonSlot }

/-- Model of `loadAuton` (autonrecorder.c lines 239-322). The branch chain
of lines 244-266: slot 0 sets `autonLoaded = 0` and returns; the skills
aggregate slot `MAX_AUTON_SLOTS + 1` = 11 sets `autonLoaded = 11` BEFORE
any file check and falls through to the read; slot 12 (hard-coded skills)
sets the marker and returns; a slot equal to the already-loaded one
returns unchanged; any other slot falls through to the read. -/
def loadAuton (autonSlot : Int) (st : RecState) (fs : FS) : RecState :=
  if autonSlot = 0 then { st with autonLoaded := 0 }
  else if autonSlot = (MAX_AUTON_SLOTS : Int) + 1 then
    loadBody autonSlot { st with autonLoaded := (MAX_AUTON_SLOTS : Int) + 1 } fs
  else if autonSlot = (MAX_AUTON_SLOTS : Int) + 2 then
    { st with autonLoaded := (MAX_AUTON_SLOTS : Int) + 2 }
  else if autonSlot = st.autonLoaded then st
  else loadBody autonSlot st fs

/-- The actuator command driven at one playback tick (autonrecorder.c
lines 356-360): every channel of `states[i]` is passed through unchanged
except `turn`, which is multiplied by the mirror flag `flipped`. -/
def driveSample (flipped : Int) (s : Sample) : Sample :=
  { spd := s.spd
    turn := flipped * s.turn
    horizontal := s.horizontal
    sht := s.sht
    lift := s.lift }

/-- The per-section tick loop of `playbackAuton` (autonrecorder.c lines
355-381), from tick `i` on. `t0` is the global tick index of this
section's tick 0 (the cancel and competition-online inputs are polled
once per tick). Each tick drives `states[i]` (with the mirror flag applied
to `turn`). If the cancel input is pressed while `isOnline()` is false,
the code sets `i = 750` and `file = 4`, so the loop (and the whole
playback) ends after this tick and the prefetch read is skipped. Otherwise,
when `doPre` is set (skills run and not the last section), the 5-byte
`fread` at this tick — the handle's position is `5*i` after `i` previous
reads — stores sample `i` of the next section's file into `states[i]`,
the index just played (lines 370-378). Returns the final buffer, the list
of driven samples, and whether the loop was cancelled. -/
def playTicks (flipped : Int) (doPre : Bool) (next : Buffer)
    (cancel online : Nat → Bool) (t0 : Nat) (i : Nat) (buf : Buffer) :
    Buffer × List Sample × Bool :=
  if h : i < numStates then
    let out := driveSample flipped (buf i)
    if cancel (t0 + i) = true ∧ online (t0 + i) = false then
      (buf, [out], true)
    else
      let buf1 := if doPre then Function.update buf i (next i) else buf
      let r := playTicks flipped doPre next cancel online t0 (i + 1) buf1
      (r.1, out :: r.2.1, r.2.2)
  else (buf, [], false)
termination_by numStates - i
decreasing_by simp_wf; omega

/-- The `do { ... } while(autonLoaded == MAX_AUTON_SLOTS + 1 && file <
PROGSKILL_TIME/AUTON_TIME)` loop of `playbackAuton` (autonrecorder.c lines
346-387). Before each section's tick loop, when doing a skills run and
`file < PROGSKILL_TIME/AUTON_TIME - 1` = 3, the next section's file
`"p" + (file+1)` is opened for prefetching (lines 350-354). On
cancellation the code sets `file = PROGSKILL_TIME/AUTON_TIME` and the
trailing `file++` makes it `numSections + 1`, so the while condition
fails. Absent section files are modelled as all-zero byte streams (the C
code would dereference a NULL handle; every claim supplies the files). -/
def playLoop (flipped : Int) (autonLoaded : Int) (fs : FS)
    (cancel online : Nat → Bool) (file : Nat) (buf : Buffer) : List Sample :=
  let doPre := autonLoaded = (MAX_AUTON_SLOTS : Int) + 1 ∧ file < numSections - 1
  let next := decode ((fs ("p" ++ toString (file + 1))).getD [])
  match playTicks flipped (decide doPre) next cancel online (numStates * file) 0 buf with
  | (bufr, outs, cancelled) =>
    if hw : autonLoaded = (MAX_AUTON_SLOTS : Int) + 1 ∧
        (if cancelled then numSections + 1 else file + 1) < numSections then
      outs ++ playLoop flipped autonLoaded fs cancel online
        (if cancelled then numSections + 1 else file + 1) bufr
    else outs
termination_by numSections - file
decreasing_by
  simp_wf
  rcases hw with ⟨h1, h2⟩
  cases cancelled <;> simp_all <;> omega

/-- Model of `playbackAuton` (autonrecorder.c lines 329-393): if
`autonLoaded == -1` it first loads slot 1 (line 335); if the marker is 0
there is nothing to play (lines 337-340); otherwise the playback loop
runs. Returns the list of driven samples. -/
def playbackAuton (flipped : Int) (st : RecState) (fs : FS)
    (cancel online : Nat → Bool) : List Sample :=
  let st1 := if st.autonLoaded = -1 then loadAuton 1 st fs else st
  if st1.autonLoaded = 0 then []
  else playLoop flipped st1.autonLoaded fs cancel online 0 st1.states

/-- Channel `j` of a sample in the order stated by the specification for
the persisted log layout: forward speed, horizontal, turn, auxiliary
(`sht`), lift. Written from the spec's words, to be compared with the
layout `encode` actually produces. -/
def specChannel (s : Sample) (j : Nat) : Int :=
  match j with
  | 0 => s.spd
  | 1 => s.horizontal
  | 2 => s.turn
  | 3 => s.sht
  | _ => s.lift

/-- Negation of the turn channel, all other channels unchanged (the
relation the mirroring claim states between the `-1` and `+1` runs). -/
def negTurn (s : Sample) : Sample := { s with turn := -s.turn }

/-- The list of actuator commands driven while one full 750-tick section
of buffer `b` plays with mirror flag `flipped`. -/
def driven (flipped : Int) (b : Buffer) : List Sample :=
  (List.range numStates).map fun i => driveSample flipped (b i)

/-- The playback cancel input is effective at global tick `t`: the cancel
button is down and `isOnline()` is false (autonrecorder.c line 362). -/
def cancelEff (cancel online : Nat → Bool) (t : Nat) : Prop :=
  cancel t = true ∧ online t = false

/-- All five channels of a sample lie in the signed 8-bit range. -/
def inRangeSample (s : Sample) : Prop :=
  -128 ≤ s.spd ∧ s.spd ≤ 127 ∧
  -128 ≤ s.turn ∧ s.turn ≤ 127 ∧
  -128 ≤ s.horizontal ∧ s.horizontal ≤ 127 ∧
  -128 ≤ s.sht ∧ s.sht ≤ 127 ∧
  -128 ≤ s.lift ∧ s.lift ≤ 127

/-- The all-zero buffer. -/
def zeroBuffer : Buffer := fun _ => zeroSample

/-- A buffer whose sample at index 1 is nonzero (concrete input for the
`initAutonRecorder` claim). -/
def dirtyBuffer : Buffer :=
  fun j => if j = 1 then { spd := 1, turn := 2, horizontal := 3, sht := 4, lift := 5 }
           else zeroSample

/-- A fresh global state (as after process start). -/
def emptyState : RecState :=
  { states := zeroBuffer, autonLoaded := -1, progSkills := 0 }

/-- A state in the middle of a programming-skills run: the section counter
is 1, the least value at which `saveAuton` takes the skills branch. -/
def skillsState1 : RecState :=
  { states := zeroBuffer, autonLoaded := (MAX_AUTON_SLOTS : Int) + 1, progSkills := 1 }

/-- An empty flash file system. -/
def noFiles : FS := fun _ => none

/-- A file system in which every `fopen(..., "w")` succeeds. -/
def allowWrite : String → Bool := fun _ => true

/-- First of four consecutive `saveAuton` calls starting in the middle of
a skills run (section counter 1, the least skills-active value). -/
def save1 : RecState × FS := saveAuton skillsState1 noFiles allowWrite

/-- Second consecutive `saveAuton` call. -/
def save2 : RecState × FS := saveAuton save1.1 save1.2 allowWrite

/-- Third consecutive `saveAuton` call. -/
def save3 : RecState × FS := saveAuton save2.1 save2.2 allowWrite

/-- Fourth consecutive `saveAuton` call. -/
def save4 : RecState × FS := saveAuton save3.1 save3.2 allowWrite

/- Helper theorems about the byte codec. -/

/-- Round trip of the signed-char byte conversion for in-range values. -/
theorem fromByte_toByte (v : Int) (h1 : -128 ≤ v) (h2 : v ≤ 127) :
    fromByte (toByte v) = v := by
  unfold toByte fromByte
  split <;> omega

/-- Indexing a flattened list of lists that all have length `m`. -/
theorem getElem?_flatten_uniform {α : Type} {m : Nat} :
    ∀ (L : List (List α)), (∀ l ∈ L, l.length = m) → ∀ i j : Nat, j < m →
      (L.flatten)[m * i + j]? = ((L[i]?).getD [])[j]? := by
  intro L
  induction L with
  | nil => intro _ i j _; simp
  | cons l L ih =>
      intro hlen i j hj
      have hl : l.length = m := hlen l (List.mem_cons_self l L)
      have hL : ∀ x ∈ L, x.length = m := fun x hx => hlen x (List.mem_cons_of_mem l hx)
      cases i with
      | zero =>
          have hlt : m * 0 + j < l.length := by omega
          rw [List.flatten_cons, List.getElem?_append, if_pos hlt]
          simp
      | succ i =>
          have hge : l.length ≤ m * (i + 1) + j := by
            have hmul : m * (i + 1) = m * i + m := by ring
            omega
          rw [List.flatten_cons, List.getElem?_append_right hge]
          have harith : m * (i + 1) + j - l.length = m * i + j := by
            have hmul : m * (i + 1) = m * i + m := by ring
            omega
          rw [harith, ih hL i j hj]
          simp

/-- Every per-sample byte group has length 5. -/
theorem encodeSample_length (s : Sample) : (encodeSample s).length = 5 := rfl

/-- The encoded stream of a buffer has exactly `5 * numStates` = 3750 bytes. -/
theorem encode_length (b : Buffer) : (encode b).length = 3750 := by
  unfold encode
  rw [List.length_flatten, List.map_ofFn]
  have hcomp : (List.length ∘ fun i : Fin numStates => encodeSample (b i.val))
      = fun _ : Fin numStates => 5 := by
    funext i; rfl
  rw [hcomp, List.ofFn_const, List.sum_replicate]
  decide

/-- Byte `5*i + j` of the encoded stream is byte `j` of the group for
sample `i`. -/
theorem encode_getElem? (b : Buffer) (i j : Nat) (hi : i < numStates) (hj : j < 5) :
    (encode b)[5 * i + j]? = (encodeSample (b i))[j]? := by
  have hunif : ∀ l ∈ (List.ofFn fun i : Fin numStates => encodeSample (b i.val)),
      l.length = 5 := by
    intro l hl
    rw [List.mem_ofFn] at hl
    obtain ⟨y, hy⟩ := hl
    rw [← hy]
    exact encodeSample_length _
  unfold encode
  rw [getElem?_flatten_uniform _ hunif i j hj]
  rw [List.getElem?_ofFn]
  simp [List.ofFnNthVal, hi]

/-- Byte 0 of a sample's group is the stored `spd` channel. -/
theorem encodeSample_byte0 (s : Sample) :
    ((encodeSample s)[0]?).getD 0 = toByte s.spd := rfl

/-- Byte 1 of a sample's group is the stored `horizontal` channel. -/
theorem encodeSample_byte1 (s : Sample) :
    ((encodeSample s)[1]?).getD 0 = toByte s.horizontal := rfl

/-- Byte 2 of a sample's group is the stored `turn` channel. -/
theorem encodeSample_byte2 (s : Sample) :
    ((encodeSample s)[2]?).getD 0 = toByte s.turn := rfl

/-- Byte 3 of a sample's group is the stored `sht` channel. -/
theorem encodeSample_byte3 (s : Sample) :
    ((encodeSample s)[3]?).getD 0 = toByte s.sht := rfl

/-- Byte 4 of a sample's group is the stored `lift` channel. -/
theorem encodeSample_byte4 (s : Sample) :
    ((encodeSample s)[4]?).getD 0 = toByte s.lift := rfl

/-- C3: for every buffer of 750 samples with all five channel values in
[-128, 127], loading what was saved (decode of encode) yields the original
buffer, sample by sample and channel by channel. -/
theorem decode_encode_roundtrip (b : Buffer)
    (hr : ∀ i, i < numStates → inRangeSample (b i)) :
    ∀ i, i < numStates → decode (encode b) i = b i := by
  intro i hi
  obtain ⟨h1, h2, h3, h4, h5, h6, h7, h8, h9, h10⟩ := hr i hi
  have e0 := encode_getElem? b i 0 hi (by omega)
  have e1 := encode_getElem? b i 1 hi (by omega)
  have e2 := encode_getElem? b i 2 hi (by omega)
  have e3 := encode_getElem? b i 3 hi (by omega)
  have e4 := encode_getElem? b i 4 hi (by omega)
  simp only [Nat.add_zero] at e0
  unfold decode decodeSample
  rw [e0, e1, e2, e3, e4,
    encodeSample_byte0, encodeSample_byte1, encodeSample_byte2,
    encodeSample_byte3, encodeSample_byte4,
    fromByte_toByte _ h1 h2, fromByte_toByte _ h3 h4, fromByte_toByte _ h5 h6,
    fromByte_toByte _ h7 h8, fromByte_toByte _ h9 h10]

/-- Witness for C3 at the all-zero buffer. -/
theorem decode_encode_roundtrip_witness :
    (∀ i, i < numStates → inRangeSample (zeroBuffer i)) ∧
    (∀ i, i < numStates → decode (encode zeroBuffer) i = zeroBuffer i) :=
  ⟨fun _ _ => show inRangeSample zeroSample by unfold inRangeSample zeroSample; norm_num,
   decode_encode_roundtrip zeroBuffer (fun _ _ => show inRangeSample zeroSample by unfold inRangeSample zeroSample; norm_num)⟩

/-- C5: a save writes exactly 3750 bytes, and byte `5*i + j` holds channel
`j` of sample `i` in the order forward speed, horizontal, turn, auxiliary,
lift. -/
theorem encode_layout (b : Buffer) (i j : Nat) (hi : i < numStates) (hj : j < 5) :
    (encode b).length = 3750 ∧
    (encode b)[5 * i + j]? = some (toByte (specChannel (b i) j)) := by
  refine ⟨encode_length b, ?_⟩
  rw [encode_getElem? b i j hi hj]
  interval_cases j <;> rfl

/-- Witness for C5 at the all-zero buffer, sample 0, channel 2. -/
theorem encode_layout_witness :
    0 < numStates ∧ 2 < 5 ∧
    ((encode zeroBuffer).length = 3750 ∧
     (encode zeroBuffer)[5 * 0 + 2]? = some (toByte (specChannel (zeroBuffer 0) 2))) :=
  ⟨by decide, by decide, encode_layout zeroBuffer 0 2 (by decide) (by decide)⟩

/-- C4 (refuting evaluation): `initAutonRecorder` zeroes sample 0 but
leaves sample 1 of a dirty buffer untouched, because
`memset(states, 0, sizeof(*states))` clears only the first `joyState`
(5 bytes), while both the claim and the code's own doc comment promise the
whole 750-sample array is zeroed. -/
theorem initAutonRecorder_leaves_tail :
    (initAutonRecorder { states := dirtyBuffer, autonLoaded := 0, progSkills := 2 }).states 0
      = zeroSample ∧
    (initAutonRecorder { states := dirtyBuffer, autonLoaded := 0, progSkills := 2 }).states 1
      = { spd := 1, turn := 2, horizontal := 3, sht := 4, lift := 5 } ∧
    (initAutonRecorder { states := dirtyBuffer, autonLoaded := 0, progSkills := 2 }).states 1
      ≠ zeroSample ∧
    (initAutonRecorder { states := dirtyBuffer, autonLoaded := 0, progSkills := 2 }).autonLoaded
      = -1 ∧
    (initAutonRecorder { states := dirtyBuffer, autonLoaded := 0, progSkills := 2 }).progSkills
      = 0 := by
  refine ⟨?_, ?_, ?_, ?_, ?_⟩ <;> decide

/-- Cast of the slot-count constant to `Int`. -/
theorem max_slots_int : (MAX_AUTON_SLOTS : Int) = 10 := rfl

/-- C7: loading any slot whose backing file is absent returns normally
with the `states` buffer unmodified. -/
theorem loadAuton_missing_file_safe (autonSlot : Int) (st : RecState) (fs : FS)
    (habs : fs (loadFilename autonSlot) = none) :
    (loadAuton autonSlot st fs).states = st.states := by
  unfold loadAuton loadBody
  rw [habs]
  repeat' split
  all_goals first
  | rfl
  | simp_all

/-- Witness for C7: loading slot 3 from an empty file system. -/
theorem loadAuton_missing_file_safe_witness :
    noFiles (loadFilename 3) = none ∧
    (loadAuton 3 emptyState noFiles).states = emptyState.states :=
  ⟨rfl, loadAuton_missing_file_safe 3 emptyState noFiles rfl⟩

/-- C10: loading the skills aggregate (slot 11) sets `autonLoaded = 11`
before the existence check on `"p0"`, so with `"p0"` absent the function
returns with the marker already 11 and the buffer unchanged; a regular
slot load with an absent file leaves the marker untouched. -/
theorem loadAuton_skills_marker_eager (st : RecState) (fs : FS)
    (habs : fs "p0" = none) :
    ((loadAuton ((MAX_AUTON_SLOTS : Int) + 1) st fs).autonLoaded
        = (MAX_AUTON_SLOTS : Int) + 1 ∧
     (loadAuton ((MAX_AUTON_SLOTS : Int) + 1) st fs).states = st.states) ∧
    (∀ s : Int, 1 ≤ s → s ≤ (MAX_AUTON_SLOTS : Int) → fs (loadFilename s) = none →
      (loadAuton s st fs).autonLoaded = st.autonLoaded ∧
      (loadAuton s st fs).states = st.states) := by
  constructor
  · have hfile : loadFilename ((MAX_AUTON_SLOTS : Int) + 1) = "p0" := rfl
    unfold loadAuton loadBody
    rw [hfile, habs, max_slots_int]
    norm_num
  · intro s hs1 hs2 habs2
    rw [max_slots_int] at hs2
    unfold loadAuton loadBody
    rw [if_neg (by omega : ¬ s = 0),
      if_neg (by rw [max_slots_int]; omega : ¬ s = (MAX_AUTON_SLOTS : Int) + 1),
      if_neg (by rw [max_slots_int]; omega : ¬ s = (MAX_AUTON_SLOTS : Int) + 2)]
    by_cases hloaded : s = st.autonLoaded
    · rw [if_pos hloaded]
      exact ⟨rfl, rfl⟩
    · rw [if_neg hloaded, habs2]
      exact ⟨rfl, rfl⟩

/-- Value of `numSections` as a numeral. -/
theorem numSections_eq : numSections = 4 := rfl

/-- Value of `numStates` as a numeral. -/
theorem numStates_eq : numStates = 750 := rfl

/-- Closed form of the recording loop when the first pressed cancel tick
is `k`: entries below the resume index keep their old values, entries up
to and including `k` hold the sampled values, and entries after `k` are
zero. -/
theorem recordLoop_spec (live : Nat → Sample) (cancel : Nat → Bool) (k : Nat)
    (hk : k < numStates) (hc : cancel k = true) :
    ∀ d i b, i ≤ k → k - i = d → (∀ j, i ≤ j → j < k → cancel j = false) →
      ∀ j, j < numStates →
        recordLoop live cancel i b j =
          if j < i then b j else if j ≤ k then sampleAt live j else zeroSample := by
  intro d
  induction d with
  | zero =>
      intro i b hik hd hfirst j hj
      have hik2 : i = k := by omega
      subst hik2
      rw [recordLoop.eq_def, dif_pos hk]
      simp only [hc, if_true]
      simp only [zeroFrom, Function.update_apply]
      rcases Nat.lt_trichotomy j i with hji | hji | hji
      · rw [if_neg (by omega : ¬ (i + 1 ≤ j ∧ j < numStates)),
          if_neg (by omega : ¬ j = i), if_pos hji]
      · subst hji
        rw [if_neg (by omega : ¬ (j + 1 ≤ j ∧ j < numStates)), if_pos rfl,
          if_neg (by omega : ¬ j < j), if_pos (le_refl j)]
      · rw [if_pos (⟨by omega, hj⟩ : i + 1 ≤ j ∧ j < numStates),
          if_neg (by omega : ¬ j < i), if_neg (by omega : ¬ j ≤ i)]
  | succ d ih =>
      intro i b hik hd hfirst j hj
      have hik2 : i < k := by omega
      have hi750 : i < numStates := by omega
      rw [recordLoop.eq_def, dif_pos hi750]
      have hci : cancel i = false := hfirst i (le_refl i) hik2
      rw [if_neg (by simp [hci])]
      rw [ih (i + 1) _ (by omega) (by omega)
        (fun j2 hj2 hj2k => hfirst j2 (by omega) hj2k) j hj]
      rcases Nat.lt_trichotomy j i with hji | hji | hji
      · rw [if_pos (by omega : j < i + 1), if_pos hji, Function.update_apply,
          if_neg (by omega : ¬ j = i)]
      · subst hji
        rw [if_pos (by omega : j < j + 1), if_neg (by omega : ¬ j < j),
          Function.update_apply, if_pos rfl, if_pos (by omega : j ≤ k)]
      · rw [if_neg (by omega : ¬ j < i + 1), if_neg (by omega : ¬ j < i)]

/-- C1 (amended): if recording is cancelled at tick `k` (the first tick at
which the cancel input is pressed), the samples at indices `[k+1, 750)`
are all-zero and the samples at `[0, k]` — including index `k` itself —
hold the values sampled before the loop exited. -/
theorem recordAuton_cancel_zero_fill (live : Nat → Sample) (cancel : Nat → Bool)
    (b : Buffer) (k : Nat) (hk : k < numStates) (hc : cancel k = true)
    (hfirst : ∀ j, j < k → cancel j = false) :
    ∀ j, j < numStates →
      recordAuton live cancel b j = if j ≤ k then sampleAt live j else zeroSample := by
  intro j hj
  unfold recordAuton
  rw [recordLoop_spec live cancel k hk hc (k - 0) 0 b (by omega) rfl
    (fun j2 _ hj2 => hfirst j2 hj2) j hj]
  rw [if_neg (by omega : ¬ j < 0)]

/-- Witness for C1's amended theorem: cancel pressed at tick 0, so sample
5 is zero. -/
theorem recordAuton_cancel_zero_fill_witness :
    0 < numStates ∧ (fun _ : Nat => true) 0 = true ∧ 5 < numStates ∧
    recordAuton (fun _ => zeroSample) (fun _ => true) zeroBuffer 5
      = (if 5 ≤ 0 then sampleAt (fun _ => zeroSample) 5 else zeroSample) :=
  ⟨by decide, rfl, by decide,
   recordAuton_cancel_zero_fill (fun _ => zeroSample) (fun _ => true) zeroBuffer 0
     (by decide) rfl (fun j hj => absurd hj (by omega)) 5 (by decide)⟩

/-- C1 (refuting evaluation): cancelling at tick 0 leaves sample 0 equal
to the value sampled at tick 0, whose horizontal channel is `-127` by the
synthetic override — not zero. The zero-fill starts at `k + 1`
(`memset(states + i + 1, ...)`), not at the cancel tick `k` itself. -/
theorem recordAuton_cancel_tick_kept :
    recordAuton (fun _ => zeroSample) (fun _ => true) zeroBuffer 0
      = sampleAt (fun _ => zeroSample) 0 ∧
    (recordAuton (fun _ => zeroSample) (fun _ => true) zeroBuffer 0).horizontal = -127 ∧
    recordAuton (fun _ => zeroSample) (fun _ => true) zeroBuffer 0 ≠ zeroSample := by
  have hstep : recordAuton (fun _ => zeroSample) (fun _ => true) zeroBuffer 0
      = sampleAt (fun _ => zeroSample) 0 := by
    unfold recordAuton
    rw [recordLoop.eq_def, dif_pos (by decide : 0 < numStates)]
    simp only [if_true]
    simp only [zeroFrom, Function.update_apply]
    rw [if_neg (by omega : ¬ (0 + 1 ≤ 0 ∧ 0 < numStates))]
    simp
  refine ⟨hstep, ?_, ?_⟩
  · rw [hstep]; decide
  · rw [hstep]; decide

/-- C2 (refuting evaluation): four consecutive `saveAuton` calls starting
in the middle of a skills run (the counter can only be nonzero while a
run is active, since `saveAuton` routes a save with counter 0 to regular
slot 1). The counter trace is 1, 2, 3, 0, 0 — never 0 → 1 — the files
written are "p1", "p2", "p3" and then the regular slot file "a1"; "p0" is
never written, contradicting the claimed 0→1→2→3→0 trace with every save
writing a "p" file. -/
theorem saveAuton_counter_cex :
    skillsState1.progSkills = 1 ∧
    save1.1.progSkills = 2 ∧ save2.1.progSkills = 3 ∧
    save3.1.progSkills = 0 ∧ save4.1.progSkills = 0 ∧
    save1.2 "p1" = some (encode zeroBuffer) ∧
    save2.2 "p2" = some (encode zeroBuffer) ∧
    save3.2 "p3" = some (encode zeroBuffer) ∧
    save4.2 "a1" = some (encode zeroBuffer) ∧
    save4.2 "p0" = none :=
  ⟨rfl, rfl, rfl, rfl, rfl, rfl, rfl, rfl, rfl, rfl⟩

/-- C2 (amended): while a skills run is active the counter is in 1..3;
each save then writes file "p" + counter, advances the counter by one and
wraps it to 0 after section 3, with `autonLoaded` set to the skills
marker 11. A save with counter 0 instead writes regular slot file "a1",
leaves the counter at 0, and never writes "p0". -/
theorem saveAuton_skills_counter (st : RecState) (fs : FS) (cw : String → Bool)
    (hcw : ∀ n, cw n = true) :
    (1 ≤ st.progSkills → st.progSkills ≤ 3 →
      (saveAuton st fs cw).1.progSkills
          = (if st.progSkills = 3 then 0 else st.progSkills + 1) ∧
      (saveAuton st fs cw).2 ("p" ++ toString st.progSkills) = some (encode st.states) ∧
      (saveAuton st fs cw).1.autonLoaded = (MAX_AUTON_SLOTS : Int) + 1) ∧
    (st.progSkills = 0 →
      (saveAuton st fs cw).1.progSkills = 0 ∧
      (saveAuton st fs cw).2 "a1" = some (encode st.states) ∧
      (saveAuton st fs cw).2 "p0" = fs "p0" ∧
      (saveAuton st fs cw).1.autonLoaded = 1) := by
  constructor
  · intro hp1 hp3
    have hne : ¬ st.progSkills = 0 := by omega
    unfold saveAuton
    by_cases h3 : st.progSkills = 3
    · rw [h3]
      norm_num [hcw, max_slots_int, numSections_eq]
    · have h4 : ¬ st.progSkills + 1 = 4 := by omega
      norm_num [hne, h3, h4, hcw, max_slots_int, numSections_eq]
  · intro hp0
    have ha1 : ("a" ++ toString (1 : Int)) = "a1" := rfl
    have hpa : ¬ ("p0" : String) = "a1" := by decide
    unfold saveAuton
    rw [hp0]
    norm_num [hcw, max_slots_int, numSections_eq, ha1, hpa]

/-- Witness for C2's amended theorem at the counter-1 state. -/
theorem saveAuton_skills_counter_witness :
    (∀ n, allowWrite n = true) ∧
    1 ≤ skillsState1.progSkills ∧ skillsState1.progSkills ≤ 3 ∧
    ((saveAuton skillsState1 noFiles allowWrite).1.progSkills
        = (if skillsState1.progSkills = 3 then 0 else skillsState1.progSkills + 1) ∧
     (saveAuton skillsState1 noFiles allowWrite).2 ("p" ++ toString skillsState1.progSkills)
        = some (encode skillsState1.states) ∧
     (saveAuton skillsState1 noFiles allowWrite).1.autonLoaded
        = (MAX_AUTON_SLOTS : Int) + 1) := by
  have h := saveAuton_skills_counter skillsState1 noFiles allowWrite (fun _ => rfl)
  exact ⟨fun _ => rfl, by decide, by decide, h.1 (by decide) (by decide)⟩

/-- Witness for C10: empty file system, fresh state, regular slot 3. -/
theorem loadAuton_skills_marker_eager_witness :
    noFiles "p0" = none ∧ 1 ≤ (3 : Int) ∧ (3 : Int) ≤ (MAX_AUTON_SLOTS : Int) ∧
    noFiles (loadFilename 3) = none ∧
    ((loadAuton ((MAX_AUTON_SLOTS : Int) + 1) emptyState noFiles).autonLoaded
        = (MAX_AUTON_SLOTS : Int) + 1 ∧
     (loadAuton ((MAX_AUTON_SLOTS : Int) + 1) emptyState noFiles).states
        = emptyState.states) ∧
    ((loadAuton 3 emptyState noFiles).autonLoaded = emptyState.autonLoaded ∧
     (loadAuton 3 emptyState noFiles).states = emptyState.states) := by
  have h := loadAuton_skills_marker_eager emptyState noFiles rfl
  exact ⟨rfl, by norm_num, by rw [max_slots_int]; norm_num, rfl, h.1,
    h.2 3 (by norm_num) (by rw [max_slots_int]; norm_num) rfl⟩

/-- Closed form of the per-section playback loop without prefetching when
no effective cancel occurs: all remaining ticks run, the buffer is
untouched, and no cancellation is reported. -/
theorem playTicks_no_cancel_no_pre (flipped : Int) (next : Buffer)
    (cancel online : Nat → Bool) (t0 : Nat)
    (hnc : ∀ j, j < numStates → ¬(cancel (t0 + j) = true ∧ online (t0 + j) = false)) :
    ∀ d i buf, numStates - i = d →
      playTicks flipped false next cancel online t0 i buf =
        (buf,
         (List.range' i (numStates - i)).map (fun j => driveSample flipped (buf j)),
         false) := by
  intro d
  induction d with
  | zero =>
      intro i buf hd
      have hni : ¬ i < numStates := by omega
      rw [playTicks.eq_def, dif_neg hni, hd]
      simp [List.range']
  | succ d ih =>
      intro i buf hd
      have hi : i < numStates := by omega
      rw [playTicks.eq_def, dif_pos hi]
      rw [if_neg (hnc i hi)]
      simp only [Bool.false_eq_true, if_false]
      rw [ih (i + 1) buf (by omega)]
      have hsplit : numStates - i = (numStates - (i + 1)) + 1 := by omega
      rw [hsplit, List.range'_succ, List.map_cons]

/-- Closed form of the per-section playback loop with prefetching when no
effective cancel occurs: all remaining ticks run, the samples driven are
those of the incoming buffer, the entries `[i, 750)` end up holding the
next section's samples, and no cancellation is reported. -/
theorem playTicks_no_cancel_pre (flipped : Int) (next : Buffer)
    (cancel online : Nat → Bool) (t0 : Nat)
    (hnc : ∀ j, j < numStates → ¬(cancel (t0 + j) = true ∧ online (t0 + j) = false)) :
    ∀ d i buf, numStates - i = d →
      playTicks flipped true next cancel online t0 i buf =
        ((fun j => if i ≤ j ∧ j < numStates then next j else buf j),
         (List.range' i (numStates - i)).map (fun j => driveSample flipped (buf j)),
         false) := by
  intro d
  induction d with
  | zero =>
      intro i buf hd
      have hni : ¬ i < numStates := by omega
      rw [playTicks.eq_def, dif_neg hni, hd]
      simp only [List.range', List.map_nil, Prod.mk.injEq]
      refine ⟨?_, trivial⟩
      funext j
      rw [if_neg (by omega : ¬ (i ≤ j ∧ j < numStates))]
  | succ d ih =>
      intro i buf hd
      have hi : i < numStates := by omega
      rw [playTicks.eq_def, dif_pos hi]
      rw [if_neg (hnc i hi)]
      simp only [if_true]
      rw [ih (i + 1) (Function.update buf i (next i)) (by omega)]
      simp only [Prod.mk.injEq]
      refine ⟨funext fun j => ?_, ?_, trivial⟩
      · by_cases hji : j = i
        · subst hji
          rw [if_neg (by omega : ¬ (j + 1 ≤ j ∧ j < numStates)),
            Function.update_same, if_pos ⟨le_refl j, hi⟩]
        · by_cases hr : i + 1 ≤ j ∧ j < numStates
          · rw [if_pos hr, if_pos ⟨by omega, hr.2⟩]
          · rw [if_neg hr, Function.update_apply, if_neg hji,
              if_neg (fun hcon => hr ⟨by omega, hcon.2⟩)]
      · have hsplit : numStates - i = (numStates - (i + 1)) + 1 := by omega
        rw [hsplit, List.range'_succ, List.map_cons]
        congr 1
        refine List.map_congr_left fun j hj => ?_
        rw [List.mem_range'_1] at hj
        rw [Function.update_apply, if_neg (by omega : ¬ j = i)]

/-- When the first effective cancel of a section occurs at its tick `k`,
the section drives exactly the ticks `[i, k]` (so `k - i + 1` samples from
start index `i`) and reports cancellation. -/
theorem playTicks_cancel_at (flipped : Int) (doPre : Bool) (next : Buffer)
    (cancel online : Nat → Bool) (t0 : Nat) (k : Nat) (hk : k < numStates)
    (hck : cancel (t0 + k) = true ∧ online (t0 + k) = false) :
    ∀ d i buf, i ≤ k → k - i = d →
      (∀ j, i ≤ j → j < k → ¬(cancel (t0 + j) = true ∧ online (t0 + j) = false)) →
      ∃ bufr outs,
        playTicks flipped doPre next cancel online t0 i buf = (bufr, outs, true) ∧
        outs.length = k - i + 1 := by
  intro d
  induction d with
  | zero =>
      intro i buf hik hd hfirst
      have hik2 : i = k := by omega
      subst hik2
      refine ⟨buf, [driveSample flipped (buf i)], ?_, by simp⟩
      rw [playTicks.eq_def, dif_pos hk]
      rw [if_pos hck]
  | succ d ih =>
      intro i buf hik hd hfirst
      have hik2 : i < k := by omega
      have hi : i < numStates := by omega
      obtain ⟨bufr, outs, heq, hlen⟩ :=
        ih (i + 1) (if doPre then Function.update buf i (next i) else buf)
          (by omega) (by omega) (fun j hj1 hj2 => hfirst j (by omega) hj2)
      refine ⟨bufr, driveSample flipped (buf i) :: outs, ?_, by simp [hlen]; omega⟩
      rw [playTicks.eq_def, dif_pos hi]
      rw [if_neg (hfirst i (le_refl i) hik2)]
      simp only [heq]

/-- Playing a section with mirror flag `-1` drives, tick for tick, the
`negTurn` of what flag `+1` drives; the final buffer and the cancellation
outcome are identical. -/
theorem playTicks_neg (doPre : Bool) (next : Buffer)
    (cancel online : Nat → Bool) (t0 : Nat) :
    ∀ d i buf, numStates - i = d →
      playTicks (-1) doPre next cancel online t0 i buf =
        ((playTicks 1 doPre next cancel online t0 i buf).1,
         (playTicks 1 doPre next cancel online t0 i buf).2.1.map negTurn,
         (playTicks 1 doPre next cancel online t0 i buf).2.2) := by
  intro d
  induction d with
  | zero =>
      intro i buf hd
      have hni : ¬ i < numStates := by omega
      rw [playTicks.eq_def, dif_neg hni]
      rw [playTicks.eq_def, dif_neg hni]
      simp
  | succ d ih =>
      intro i buf hd
      have hi : i < numStates := by omega
      have hdrive : driveSample (-1) (buf i) = negTurn (driveSample 1 (buf i)) := by
        simp only [driveSample, negTurn]
        congr 1
        ring
      by_cases hc : cancel (t0 + i) = true ∧ online (t0 + i) = false
      · rw [playTicks.eq_def, dif_pos hi, if_pos hc]
        rw [playTicks.eq_def, dif_pos hi, if_pos hc]
        simp [hdrive]
      · rw [playTicks.eq_def, dif_pos hi, if_neg hc]
        conv_rhs => rw [playTicks.eq_def, dif_pos hi, if_neg hc]
        simp only []
        rw [ih (i + 1) (if doPre then Function.update buf i (next i) else buf) (by omega)]
        simp [hdrive]

/-- One unfolding of the section loop, phrased through the result of the
section's tick loop. -/
theorem playLoop_eq2 (flipped autonLoaded : Int) (fs : FS)
    (cancel online : Nat → Bool) (file : Nat) (buf : Buffer) (doPre : Bool)
    (bufr : Buffer) (outs : List Sample) (cancelled : Bool)
    (hdp : decide (autonLoaded = (MAX_AUTON_SLOTS : Int) + 1 ∧ file < numSections - 1)
      = doPre)
    (hpt : playTicks flipped doPre (decode ((fs ("p" ++ toString (file + 1))).getD []))
      cancel online (numStates * file) 0 buf = (bufr, outs, cancelled)) :
    playLoop flipped autonLoaded fs cancel online file buf =
      if autonLoaded = (MAX_AUTON_SLOTS : Int) + 1 ∧
          (if cancelled then numSections + 1 else file + 1) < numSections then
        outs ++ playLoop flipped autonLoaded fs cancel online
          (if cancelled then numSections + 1 else file + 1) bufr
      else outs := by
  subst hdp
  rw [playLoop.eq_def]
  simp only [hpt]
  rw [dite_eq_ite]

/-- The whole playback loop with mirror flag `-1` drives, tick for tick,
the `negTurn` of what it drives with flag `+1`. -/
theorem playLoop_neg (autonLoaded : Int) (fs : FS) (cancel online : Nat → Bool) :
    ∀ d file buf, numSections - file = d →
      playLoop (-1) autonLoaded fs cancel online file buf =
        (playLoop 1 autonLoaded fs cancel online file buf).map negTurn := by
  intro d
  induction d using Nat.strong_induction_on with
  | _ d ih =>
      intro file buf hd
      rcases hpt : playTicks 1
          (decide (autonLoaded = (MAX_AUTON_SLOTS : Int) + 1 ∧ file < numSections - 1))
          (decode ((fs ("p" ++ toString (file + 1))).getD []))
          cancel online (numStates * file) 0 buf with ⟨bufr, outs, cancelled⟩
      have hneg := playTicks_neg
          (decide (autonLoaded = (MAX_AUTON_SLOTS : Int) + 1 ∧ file < numSections - 1))
          (decode ((fs ("p" ++ toString (file + 1))).getD []))
          cancel online (numStates * file) (numStates - 0) 0 buf rfl
      rw [hpt] at hneg
      rw [playLoop_eq2 (-1) autonLoaded fs cancel online file buf _ _ _ _ rfl hneg]
      rw [playLoop_eq2 1 autonLoaded fs cancel online file buf _ _ _ _ rfl hpt]
      by_cases hw : autonLoaded = (MAX_AUTON_SLOTS : Int) + 1 ∧
          (if cancelled then numSections + 1 else file + 1) < numSections
      · rw [if_pos hw, if_pos hw, List.map_append]
        congr 1
        rcases cancelled with _ | _
        · have hlt : file + 1 < numSections := by
            have h2 := hw.2
            simpa using h2
          exact ih (numSections - (file + 1)) (by omega) (file + 1) bufr rfl
        · exfalso
          have h2 := hw.2
          simp at h2
      · rw [if_neg hw, if_neg hw]

/-- C9: for every loaded buffer, file system and tick, playback with
mirror flag `-1` drives the turn channel as the negation of the value
driven with flag `+1`, and the other four channels identically — the
driven sample lists are related pointwise by `negTurn`. -/
theorem playback_mirror (autonLoaded : Int) (fs : FS) (cancel online : Nat → Bool)
    (file : Nat) (buf : Buffer) :
    playLoop (-1) autonLoaded fs cancel online file buf =
      (playLoop 1 autonLoaded fs cancel online file buf).map negTurn :=
  playLoop_neg autonLoaded fs cancel online (numSections - file) file buf rfl

/-- A section with no effective cancel among its ticks drives exactly
`numStates` samples and reports no cancellation. -/
theorem playTicks_full_section (flipped : Int) (doPre : Bool) (next : Buffer)
    (cancel online : Nat → Bool) (t0 : Nat) (buf : Buffer)
    (hnc : ∀ j, j < numStates → ¬(cancel (t0 + j) = true ∧ online (t0 + j) = false)) :
    ∃ bufr outs,
      playTicks flipped doPre next cancel online t0 0 buf = (bufr, outs, false) ∧
      outs.length = numStates := by
  rcases doPre with _ | _
  · rw [playTicks_no_cancel_no_pre flipped next cancel online t0 hnc (numStates - 0) 0 buf rfl]
    exact ⟨_, _, rfl, by simp⟩
  · rw [playTicks_no_cancel_pre flipped next cancel online t0 hnc (numStates - 0) 0 buf rfl]
    exact ⟨_, _, rfl, by simp⟩

/-- With no effective cancel anywhere, a skills playback starting at
section `file` plays the remaining `numSections - file` sections in full. -/
theorem playLoop_len_no_cancel (flipped : Int) (fs : FS) (cancel online : Nat → Bool)
    (hnc : ∀ t, t < numStates * numSections → ¬(cancel t = true ∧ online t = false)) :
    ∀ d file buf, numSections - file = d → file < numSections →
      (playLoop flipped ((MAX_AUTON_SLOTS : Int) + 1) fs cancel online file buf).length
        = (numSections - file) * numStates := by
  intro d
  induction d using Nat.strong_induction_on with
  | _ d ih =>
      intro file buf hd hf
      have hsec : ∀ j, j < numStates →
          ¬(cancel (numStates * file + j) = true ∧ online (numStates * file + j) = false) := by
        intro j hj
        apply hnc
        rw [numStates_eq, numSections_eq]
        rw [numStates_eq] at hj
        rw [numSections_eq] at hf
        omega
      obtain ⟨bufr, outs, hpt, hlen⟩ := playTicks_full_section flipped
        (decide (((MAX_AUTON_SLOTS : Int) + 1) = (MAX_AUTON_SLOTS : Int) + 1 ∧
          file < numSections - 1))
        (decode ((fs ("p" ++ toString (file + 1))).getD []))
        cancel online (numStates * file) buf hsec
      rw [playLoop_eq2 flipped ((MAX_AUTON_SLOTS : Int) + 1) fs cancel online file buf
        _ _ _ _ rfl hpt]
      by_cases hnext : file + 1 < numSections
      · rw [if_pos ⟨rfl, by simpa using hnext⟩]
        rw [List.length_append, hlen, if_neg Bool.false_ne_true]
        rw [ih (numSections - (file + 1)) (by omega) (file + 1) bufr rfl hnext]
        rw [numStates_eq, numSections_eq]
        rw [numSections_eq] at hf
        omega
      · rw [if_neg ?_]
        · rw [hlen]
          have hlast : numSections - file = 1 := by omega
          rw [hlast]
          omega
        · rintro ⟨_, hc⟩
          simp at hc
          exact hnext hc

/-- When the first effective cancel of the whole playback is at global
tick `t`, a skills playback starting at section `file` (whose first tick
is global tick `numStates * file ≤ t`) drives exactly the ticks up to and
including `t` and stops. -/
theorem playLoop_len_cancel (flipped : Int) (fs : FS) (cancel online : Nat → Bool)
    (t : Nat) (ht : t < numStates * numSections)
    (hct : cancel t = true ∧ online t = false)
    (hfirst : ∀ j, j < t → ¬(cancel j = true ∧ online j = false)) :
    ∀ d file buf, numSections - file = d → numStates * file ≤ t →
      (playLoop flipped ((MAX_AUTON_SLOTS : Int) + 1) fs cancel online file buf).length
        = t + 1 - numStates * file := by
  intro d
  induction d using Nat.strong_induction_on with
  | _ d ih =>
      intro file buf hd hle
      by_cases hin : t < numStates * (file + 1)
      · have hk : t - numStates * file < numStates := by
          rw [numStates_eq] at *
          omega
        obtain ⟨bufr, outs, hpt, hlen⟩ := playTicks_cancel_at flipped
          (decide (((MAX_AUTON_SLOTS : Int) + 1) = (MAX_AUTON_SLOTS : Int) + 1 ∧
            file < numSections - 1))
          (decode ((fs ("p" ++ toString (file + 1))).getD []))
          cancel online (numStates * file) (t - numStates * file) hk
          (by rw [show numStates * file + (t - numStates * file) = t from by omega]
              exact hct)
          (t - numStates * file - 0) 0 buf (by omega) rfl
          (fun j hj1 hj2 => hfirst (numStates * file + j) (by omega))
        rw [playLoop_eq2 flipped ((MAX_AUTON_SLOTS : Int) + 1) fs cancel online file buf
          _ _ _ _ rfl hpt]
        rw [if_neg ?_]
        · rw [hlen]
          omega
        · rintro ⟨_, hc⟩
          simp at hc
      · have hsec : ∀ j, j < numStates →
            ¬(cancel (numStates * file + j) = true ∧ online (numStates * file + j) = false) := by
          intro j hj
          apply hfirst
          rw [numStates_eq] at *
          omega
        obtain ⟨bufr, outs, hpt, hlen⟩ := playTicks_full_section flipped
          (decide (((MAX_AUTON_SLOTS : Int) + 1) = (MAX_AUTON_SLOTS : Int) + 1 ∧
            file < numSections - 1))
          (decode ((fs ("p" ++ toString (file + 1))).getD []))
          cancel online (numStates * file) buf hsec
        rw [playLoop_eq2 flipped ((MAX_AUTON_SLOTS : Int) + 1) fs cancel online file buf
          _ _ _ _ rfl hpt]
        have hf1 : file + 1 < numSections := by
          rw [numStates_eq, numSections_eq] at *
          omega
        rw [if_pos ⟨rfl, by simpa using hf1⟩]
        rw [List.length_append, hlen, if_neg Bool.false_ne_true]
        rw [ih (numSections - (file + 1)) (by omega) (file + 1) bufr rfl
          (by rw [numStates_eq] at *; omega)]
        rw [numStates_eq] at *
        omega

/-- C8: during playback the cancel input, polled once per tick, terminates
the remaining ticks of the current section and all remaining sections iff
the competition-online signal is false at that tick. If `online` is true
whenever `cancel` is pressed (in particular, always), all
`numStates * numSections` = 3000 ticks are driven; if the first tick `t`
with the cancel input down and `online` false exists, exactly `t + 1`
ticks are driven. -/
theorem playback_cancel_iff_offline (flipped : Int) (fs : FS)
    (cancel online : Nat → Bool) (buf : Buffer) :
    ((∀ t, t < numStates * numSections → ¬ cancelEff cancel online t) →
      (playLoop flipped ((MAX_AUTON_SLOTS : Int) + 1) fs cancel online 0 buf).length
        = numStates * numSections) ∧
    (∀ t, t < numStates * numSections → cancelEff cancel online t →
      (∀ j, j < t → ¬ cancelEff cancel online j) →
      (playLoop flipped ((MAX_AUTON_SLOTS : Int) + 1) fs cancel online 0 buf).length
        = t + 1) := by
  constructor
  · intro hnc
    have h := playLoop_len_no_cancel flipped fs cancel online
      (by simpa [cancelEff] using hnc) numSections 0 buf (by omega)
      (by rw [numSections_eq]; omega)
    rw [h]
    rw [numStates_eq, numSections_eq]
  · intro t ht hct hfirst
    have h := playLoop_len_cancel flipped fs cancel online t ht
      (by simpa [cancelEff] using hct) (by simpa [cancelEff] using hfirst)
      numSections 0 buf (by omega) (by omega)
    rw [h]
    omega

/-- Witness for C8: with `online` always false and cancel first pressed at
global tick 57, playback drives exactly 58 ticks. -/
theorem playback_cancel_iff_offline_witness :
    ((57 : Nat) < numStates * numSections) ∧
    cancelEff (fun t => decide (t = 57)) (fun _ => false) 57 ∧
    (∀ j, j < 57 → ¬ cancelEff (fun t => decide (t = 57)) (fun _ => false) j) ∧
    (playLoop 1 ((MAX_AUTON_SLOTS : Int) + 1) noFiles
        (fun t => decide (t = 57)) (fun _ => false) 0 zeroBuffer).length = 57 + 1 := by
  refine ⟨by decide, by simp [cancelEff], ?_, ?_⟩
  · intro j hj
    simp [cancelEff]
    omega
  · exact (playback_cancel_iff_offline 1 noFiles (fun t => decide (t = 57))
      (fun _ => false) zeroBuffer).2 57 (by decide) (by simp [cancelEff])
      (fun j hj => by simp [cancelEff]; omega)

/-- Every section's driven-sample list has length `numStates`. -/
theorem driven_length (flipped : Int) (b : Buffer) :
    (driven flipped b).length = numStates := by
  simp [driven]

/-- C6: during skills-aggregate playback without cancellation, each of the
first three sections streams its successor's file into the buffer one
sample per tick at the just-played index — so after a prefetching section
the buffer holds the next section in full (first conjunct) — and playback
drives exactly the four sections 0, 1, 2, 3 in order, 3000 ticks in all,
with section 3 driven from the buffer without a further prefetch. -/
theorem playback_skills_prefetch (flipped : Int) (fs : FS) (sections : Nat → Buffer)
    (cancel online : Nat → Bool)
    (hfs : ∀ s : Nat, decode ((fs ("p" ++ toString s)).getD []) = sections s)
    (hnc : ∀ t, ¬ cancelEff cancel online t) :
    (∀ (next buf : Buffer) (t0 j : Nat), j < numStates →
        (playTicks flipped true next cancel online t0 0 buf).1 j = next j) ∧
    playLoop flipped ((MAX_AUTON_SLOTS : Int) + 1) fs cancel online 0 (sections 0) =
      driven flipped (sections 0) ++ (driven flipped (sections 1) ++
        (driven flipped (sections 2) ++ driven flipped (sections 3))) ∧
    (playLoop flipped ((MAX_AUTON_SLOTS : Int) + 1) fs cancel online 0
      (sections 0)).length = 3000 := by
  have hnc' : ∀ (t0 : Nat) j, j < numStates →
      ¬(cancel (t0 + j) = true ∧ online (t0 + j) = false) := by
    intro t0 j _
    have h := hnc (t0 + j)
    simpa [cancelEff] using h
  have hbufpart : ∀ (next buf : Buffer) (t0 j : Nat), j < numStates →
      (playTicks flipped true next cancel online t0 0 buf).1 j = next j := by
    intro next buf t0 j hj
    rw [playTicks_no_cancel_pre flipped next cancel online t0 (hnc' t0)
      (numStates - 0) 0 buf rfl]
    simp [hj]
  have hstep : ∀ (file : Nat) (buf : Buffer), file < numSections - 1 →
      (∀ j, j < numStates → buf j = sections file j) →
      playLoop flipped ((MAX_AUTON_SLOTS : Int) + 1) fs cancel online file buf =
        driven flipped (sections file) ++
          playLoop flipped ((MAX_AUTON_SLOTS : Int) + 1) fs cancel online (file + 1)
            (fun j => if 0 ≤ j ∧ j < numStates then
                decode ((fs ("p" ++ toString (file + 1))).getD []) j else buf j) := by
    intro file buf hf hagree
    have hpt := playTicks_no_cancel_pre flipped
      (decode ((fs ("p" ++ toString (file + 1))).getD [])) cancel online
      (numStates * file) (hnc' _) (numStates - 0) 0 buf rfl
    rw [playLoop_eq2 flipped ((MAX_AUTON_SLOTS : Int) + 1) fs cancel online file buf
      _ _ _ _ (by simp [hf]) hpt]
    rw [if_neg Bool.false_ne_true]
    rw [if_pos ⟨rfl, by rw [numSections_eq] at *; omega⟩]
    congr 1
    unfold driven
    rw [List.range_eq_range', Nat.sub_zero]
    refine List.map_congr_left fun j hj => ?_
    rw [List.mem_range'_1] at hj
    rw [hagree j (by omega)]
  have hlast : ∀ (buf : Buffer), (∀ j, j < numStates → buf j = sections 3 j) →
      playLoop flipped ((MAX_AUTON_SLOTS : Int) + 1) fs cancel online 3 buf =
        driven flipped (sections 3) := by
    intro buf hagree
    have hpt := playTicks_no_cancel_no_pre flipped
      (decode ((fs ("p" ++ toString (3 + 1))).getD [])) cancel online
      (numStates * 3) (hnc' _) (numStates - 0) 0 buf rfl
    rw [playLoop_eq2 flipped ((MAX_AUTON_SLOTS : Int) + 1) fs cancel online 3 buf
      false _ _ _ (by decide) hpt]
    rw [if_neg ?_]
    · unfold driven
      rw [List.range_eq_range', Nat.sub_zero]
      refine List.map_congr_left fun j hj => ?_
      rw [List.mem_range'_1] at hj
      rw [hagree j (by omega)]
    · rintro ⟨_, hc⟩
      rw [if_neg Bool.false_ne_true] at hc
      rw [numSections_eq] at hc
      omega
  have hchain1 := hstep 0 (sections 0) (by rw [numSections_eq]; omega) (fun j _ => rfl)
  set b1 : Buffer := fun j => if 0 ≤ j ∧ j < numStates then
      decode ((fs ("p" ++ toString (0 + 1))).getD []) j else sections 0 j with hb1
  have hag1 : ∀ j, j < numStates → b1 j = sections 1 j := by
    intro j hj
    rw [hb1]
    simp only [Nat.zero_le, hj, and_true, true_and, if_true]
    exact congrFun (hfs 1) j
  have hchain2 := hstep 1 b1 (by rw [numSections_eq]; omega) hag1
  set b2 : Buffer := fun j => if 0 ≤ j ∧ j < numStates then
      decode ((fs ("p" ++ toString (1 + 1))).getD []) j else b1 j with hb2
  have hag2 : ∀ j, j < numStates → b2 j = sections 2 j := by
    intro j hj
    rw [hb2]
    simp only [Nat.zero_le, hj, and_true, true_and, if_true]
    exact congrFun (hfs 2) j
  have hchain3 := hstep 2 b2 (by rw [numSections_eq]; omega) hag2
  set b3 : Buffer := fun j => if 0 ≤ j ∧ j < numStates then
      decode ((fs ("p" ++ toString (2 + 1))).getD []) j else b2 j with hb3
  have hag3 : ∀ j, j < numStates → b3 j = sections 3 j := by
    intro j hj
    rw [hb3]
    simp only [Nat.zero_le, hj, and_true, true_and, if_true]
    exact congrFun (hfs 3) j
  have hchain4 := hlast b3 hag3
  have hmain : playLoop flipped ((MAX_AUTON_SLOTS : Int) + 1) fs cancel online 0
      (sections 0) =
      driven flipped (sections 0) ++ (driven flipped (sections 1) ++
        (driven flipped (sections 2) ++ driven flipped (sections 3))) := by
    rw [hchain1, hchain2, hchain3, hchain4]
  refine ⟨hbufpart, hmain, ?_⟩
  rw [hmain]
  simp [driven_length, numStates_eq]

/-- Witness for C6 at all-zero section files and no cancellation. -/
theorem playback_skills_prefetch_witness :
    (∀ s : Nat, decode ((noFiles ("p" ++ toString s)).getD [])
      = (fun _ : Nat => decode ([] : List Nat)) s) ∧
    (∀ t, ¬ cancelEff (fun _ => false) (fun _ => true) t) ∧
    playLoop 1 ((MAX_AUTON_SLOTS : Int) + 1) noFiles (fun _ => false) (fun _ => true) 0
        ((fun _ : Nat => decode ([] : List Nat)) 0) =
      driven 1 ((fun _ : Nat => decode ([] : List Nat)) 0) ++
        (driven 1 ((fun _ : Nat => decode ([] : List Nat)) 1) ++
          (driven 1 ((fun _ : Nat => decode ([] : List Nat)) 2) ++
            driven 1 ((fun _ : Nat => decode ([] : List Nat)) 3))) ∧
    (playLoop 1 ((MAX_AUTON_SLOTS : Int) + 1) noFiles (fun _ => false) (fun _ => true) 0
        ((fun _ : Nat => decode ([] : List Nat)) 0)).length = 3000 := by
  have h := playback_skills_prefetch 1 noFiles (fun _ : Nat => decode ([] : List Nat))
    (fun _ => false) (fun _ => true) (fun s => rfl)
    (fun t => by simp [cancelEff])
  exact ⟨fun s => rfl, fun t => by simp [cancelEff], h.2.1, h.2.2⟩

end AutonRecorder
